import Mathlib

/-!
Shallow embedding of the w3c_batch job pipeline.

This file embeds, in Lean, the parts of the w3c_batch repository that the
verified properties talk about:

* the data model of `src/types.ts` (`W3CMessage`, `PageStatus`, `PageResult`,
  `ReportSummary`),
* the checker adapter of `src/validator.ts` (`normalizeType`, `mapMessages`),
* the URL rewriting of `src/utils.ts` (`resolveUrlToBase`),
* the sitemap parsing of `src/sitemap.ts` (`parseUrlsFromXml`,
  `extractUrlsFromSitemap` with its `MAX_DEPTH` guard),
* the HTTP server's job registry and validation pipeline (the `Job` record,
  `emit`, `endJob`, the `/api/abort` and `/api/stream` route handlers, and
  `runValidation` with its `pLimit(1)`-sequential task loop).

External collaborators (the network, the W3C checker, the WHATWG `URL`
parser) are modelled as oracle parameters: a function argument stands for
the collaborator's observable behaviour.  Wall-clock values (`duration`,
`generatedAt`) are not representable and are omitted from the embedded
records; no verified property mentions them.

The pipeline itself runs under `pLimit(1)`, so its tasks execute strictly
sequentially; the only concurrency in the program is the interleaving of
HTTP route handlers (abort, stream attach) with the pipeline at its `await`
points.  We therefore embed the pipeline as a small-step machine whose
atomic steps are the maximal synchronous segments between `await`
boundaries, and an execution schedule interleaves pipeline ticks with
abort requests.
-/

/-- Normalised diagnostic kind, `MessageType` of `src/types.ts`:
`'error' | 'warning' | 'info'`. -/
inductive Mtype where
  | error
  | warning
  | info
deriving DecidableEq, Repr

/-- `W3CMessage` of `src/types.ts`: a normalised diagnostic produced by the
checker adapter.  All optional location fields are kept; the pipeline only
ever inspects `type`. -/
structure W3CMessage where
  type : Mtype
  message : String
  extract : Option String := none
  firstLine : Option Nat := none
  lastLine : Option Nat := none
  firstColumn : Option Nat := none
  lastColumn : Option Nat := none
  subType : Option String := none
deriving DecidableEq, Repr

/-- A raw message as returned by the W3C Nu checker API
(`W3CApiResponse.messages` element in `src/validator.ts`): `type` is an
arbitrary string, `subType` optional. -/
structure RawMessage where
  type : String
  subType : Option String := none
  message : String
  extract : Option String := none
  firstLine : Option Nat := none
  lastLine : Option Nat := none
  firstColumn : Option Nat := none
  lastColumn : Option Nat := none
deriving DecidableEq, Repr

/-- `normalizeType` of `src/validator.ts`:
`'error'` maps to `error`; `'info'` with sub-type `'warning'` maps to
`warning`; everything else maps to `info`. -/
def normalizeType (type : String) (subType : Option String) : Mtype :=
  if type = "error" then .error
  else if type = "info" ∧ subType = some "warning" then .warning
  else .info

/-- `mapMessages` of `src/validator.ts`: normalise each raw checker message,
copying every payload field. -/
def mapMessages (messages : List RawMessage) : List W3CMessage :=
  messages.map fun msg =>
    { type := normalizeType msg.type msg.subType
      message := msg.message
      extract := msg.extract
      firstLine := msg.firstLine
      lastLine := msg.lastLine
      firstColumn := msg.firstColumn
      lastColumn := msg.lastColumn
      subType := msg.subType }

/-- `PageStatus` of `src/types.ts`. -/
inductive PageStatus where
  | clean
  | warnings
  | errors
  | failed
deriving DecidableEq, Repr

/-- `PageResult` of `src/types.ts` (without the wall-clock `duration`
field, which is not representable in the embedding). -/
structure PageResult where
  url : String
  sourceUrl : String
  messages : List W3CMessage
  status : PageStatus
  errorMessage : Option String := none
deriving DecidableEq, Repr

/-- `ReportSummary` of `src/types.ts` (without the wall-clock
`generatedAt` timestamp). -/
structure ReportSummary where
  totalPages : Nat
  pagesWithErrors : Nat
  pagesWithWarnings : Nat
  pagesClean : Nat
  pagesFailed : Nat
  totalErrors : Nat
  totalWarnings : Nat
  totalInfos : Nat
  sitemapUrl : String
deriving DecidableEq, Repr

/-- The summary computation of `runValidation` (server source embedded in
`README.md`, the block building `summary: ReportSummary` after
`Promise.all`): counts of pages by status and message totals over the
settled results (`valid = results.filter(Boolean)` is passed in as
`valid`). -/
def mkSummary (baseUrl : String) (valid : List PageResult) : ReportSummary :=
  { totalPages := valid.length
    pagesWithErrors := (valid.filter fun r => r.status == PageStatus.errors).length
    pagesWithWarnings := (valid.filter fun r => r.status == PageStatus.warnings).length
    pagesClean := (valid.filter fun r => r.status == PageStatus.clean).length
    pagesFailed := (valid.filter fun r => r.status == PageStatus.failed).length
    totalErrors := valid.foldl (fun s r => s + (r.messages.filter fun m => m.type == Mtype.error).length) 0
    totalWarnings := valid.foldl (fun s r => s + (r.messages.filter fun m => m.type == Mtype.warning).length) 0
    totalInfos := valid.foldl (fun s r => s + (r.messages.filter fun m => m.type == Mtype.info).length) 0
    sitemapUrl := baseUrl }

/-- The inline status classification of the per-page task body in
`runValidation`:
`errors > 0 ? 'errors' : warnings > 0 ? 'warnings' : 'clean'` where
`errors`/`warnings` count messages of that type. -/
def classify (messages : List W3CMessage) : PageStatus :=
  let errors := (messages.filter fun m => m.type == Mtype.error).length
  let warnings := (messages.filter fun m => m.type == Mtype.warning).length
  if errors > 0 then .errors
  else if warnings > 0 then .warnings
  else .clean

/-- The server-sent event vocabulary emitted by `runValidation` and the
route handlers (each `emit(job, {...})` call site in the server source).
Wall-clock `duration` payloads are omitted. -/
inductive Event where
  | sitemap_error (message : String)
  | sitemapindex_resolving (count : Nat) (urls : List String)
  | sitemapindex_fetching (url : String)
  | sitemapindex_fetched (url : String) (count : Nat)
  | sitemapindex_fetch_error (url : String) (message : String)
  | sitemapindex_resolved (totalUrls : Nat)
  | sitemap_done (count : Nat) (urls : List String)
  | page_fetching (index : Nat) (url : String)
  | page_validating (index : Nat) (url : String)
  | page_done (index : Nat) (url : String) (status : PageStatus)
      (messages : List W3CMessage) (errorMessage : Option String)
  | cancelled
  | done (summary : ReportSummary)
  | stream_end
deriving DecidableEq, Repr

/-- The `Job` record of the server source (its `report` field, an opaque
rendered artifact produced by the external `generateHtmlReport`
collaborator, is omitted; the `listeners` set is modelled through
`observerReceives` below). -/
structure Job where
  buffered : List Event
  done : Bool
  aborted : Bool
deriving DecidableEq, Repr

/-- `createJob` of the server source: a fresh job (the generated UUID key
of the job map is not part of the job state). -/
def createJob : Job :=
  { buffered := [], done := false, aborted := false }

/-- `emit` of the server source: append the event to the buffered sequence
(and forward it to every attached listener — forwarding is modelled by
`observerReceives`).  There is no guard of any kind: `emit` appends whether
or not the job is done or aborted. -/
def emit (job : Job) (event : Event) : Job :=
  { job with buffered := job.buffered ++ [event] }

/-- `endJob` of the server source: emit `stream_end`, then set `done`. -/
def endJob (job : Job) : Job :=
  { emit job Event.stream_end with done := true }

/-- The `POST /api/abort/:id` route handler body (for an existing job):
set `aborted`, emit `cancelled`, `endJob`. -/
def abortRoute (job : Job) : Job :=
  endJob (emit { job with aborted := true } Event.cancelled)

/-- What a registered listener forwards of the events emitted after
attach: everything up to and including the first `stream_end`, at which
the listener closes its response (`if (d.includes('"stream_end"'))
res.end()` in the stream route). -/
def forwardUntilEnd : List Event → List Event
  | [] => []
  | e :: rest =>
    if e = Event.stream_end then [e] else e :: forwardUntilEnd rest

/-- The `GET /api/stream/:id` route handler, from the observer's side:
the full buffered sequence is replayed immediately (`for (const d of
job.buffered) res.write(d)`); if the job is done the response is closed
without registering a listener, so none of the events emitted later
(`later`) is ever forwarded; otherwise a listener is registered and the
later events follow the replay until the first `stream_end` closes the
response. -/
def observerReceives (job : Job) (later : List Event) : List Event :=
  job.buffered ++ (if job.done then [] else forwardUntilEnd later)

/-- Whether the `GET /api/stream/:id` handler leaves a live listener
attached after the replay: it does exactly when the job is not yet done. -/
def streamAttachesListener (job : Job) : Bool :=
  ! job.done

/-- Count of `cancelled` events in an event list. -/
def countCancelled (events : List Event) : Nat :=
  (events.filter fun e => e matches Event.cancelled).length

/-! ## Sitemap parsing (`src/sitemap.ts`) -/

/-- `MAX_DEPTH` of `src/sitemap.ts`. -/
def MAX_DEPTH : Nat := 3

/-- Abstraction of a sitemap XML document as seen through
`parser.parse` (the external `fast-xml-parser` collaborator): either a
`<urlset>` with a list of `<url>` entries, a `<sitemapindex>` with a list
of `<sitemap>` entries, or neither.  An entry is its `loc` child when that
is a string (`none` models a missing or non-string `loc`). -/
inductive SitemapDoc where
  | urlset (entries : List (Option String))
  | sitemapindex (entries : List (Option String))
  | unrecognized
deriving DecidableEq, Repr

/-- The entry-collection expression shared by both branches of
`src/sitemap.ts`: `entries.map((entry) => entry.loc).filter((loc) =>
typeof loc === 'string' && loc.length > 0)` — entries without a usable
location are silently dropped. -/
def collectLocs (entries : List (Option String)) : List String :=
  entries.filterMap fun loc =>
    match loc with
    | some s => if s.length > 0 then some s else none
    | none => none

/-- `ParseResult` of `src/sitemap.ts`. -/
inductive ParseResult where
  | urls (urls : List String)
  | sitemapindex (sitemapUrls : List String)
deriving DecidableEq, Repr

/-- `parseUrlsFromXml` of `src/sitemap.ts`: classify the parsed document,
throwing (modelled as `Except.error`) when neither root element is
recognized. -/
def parseUrlsFromXml (doc : SitemapDoc) : Except String ParseResult :=
  match doc with
  | .urlset entries => .ok (.urls (collectLocs entries))
  | .sitemapindex entries => .ok (.sitemapindex (collectLocs entries))
  | .unrecognized =>
    .error "Unrecognized XML format. Expected a sitemap <urlset> with <url> entries."

mutual

/-- `extractUrlsFromSitemap` of `src/sitemap.ts` (the CLI's recursive
resolver).  The network (`axios.get` followed by `parser.parse`) is the
oracle `net`: it yields the parsed document of the fetched sitemap, or a
fetch failure message.  A fetch failure is re-thrown wrapped (fatal to the
caller); recursion over a `<sitemapindex>` happens through
`extractFromIndexEntries` with `depth + 1`; the `depth > MAX_DEPTH` guard
returns an empty list without failing (the source logs a console warning,
which has no observable effect on the result). -/
def extractUrlsFromSitemap (net : String → Except String SitemapDoc)
    (sitemapUrl : String) (depth : Nat := 0) : Except String (List String) :=
  if _h : depth > MAX_DEPTH then .ok []
  else
    match net sitemapUrl with
    | .error message =>
      .error ("Failed to fetch sitemap at " ++ sitemapUrl ++ ": " ++ message)
    | .ok (SitemapDoc.sitemapindex entries) => extractFromIndexEntries net entries depth
    | .ok (SitemapDoc.urlset entries) => .ok (collectLocs entries)
    | .ok SitemapDoc.unrecognized =>
      .error ("Unrecognized sitemap format at " ++ sitemapUrl)
termination_by (2 * (MAX_DEPTH + 2 - depth), 0)

/-- The `for (const entry of sitemaps)` loop inside the `sitemapindex`
branch of `extractUrlsFromSitemap`: recurse into each entry whose `loc`
is a truthy (non-empty) string — `if (entry.loc)` — and concatenate the
results in order; a thrown error from a nested call propagates (the loop
body is not wrapped in a `try`). -/
def extractFromIndexEntries (net : String → Except String SitemapDoc)
    (entries : List (Option String)) (depth : Nat) : Except String (List String) :=
  match entries with
  | [] => .ok []
  | entry :: rest =>
    match entry with
    | some loc =>
      if loc.length > 0 then
        match extractUrlsFromSitemap net loc (depth + 1) with
        | .error e => .error e
        | .ok nested =>
          match extractFromIndexEntries net rest depth with
          | .error e => .error e
          | .ok more => .ok (nested ++ more)
      else extractFromIndexEntries net rest depth
    | none => extractFromIndexEntries net rest depth
termination_by (2 * (MAX_DEPTH + 1 - depth) + 1, entries.length)

end

/-! ## URL rewriting (`src/utils.ts`) -/

/-- The observable components of a WHATWG `URL` object, as used by
`resolveUrlToBase`: the components the setters touch (`protocol`,
`hostname`, `port`), the components left untouched (`pathname`,
`search` and the rest), and the internal attributes the setters' refusal
guards consult.  `hostname = ""` stands for a null or an empty host (the
JS `hostname` getter returns `""` for both), `port = ""` for a null
port, and `opaquePath` records whether the URL has an opaque path (a
non-special URL such as `mailto:x@y` whose path is one opaque string). -/
structure URLRec where
  protocol : String
  hostname : String
  port : String
  pathname : String
  search : String
  hash : String := ""
  username : String := ""
  password : String := ""
  opaquePath : Bool := false
deriving DecidableEq, Repr

/-- The URL Standard's special schemes, as `protocol` values (scheme with
the trailing colon the `protocol` getter includes). -/
def isSpecialScheme (protocol : String) : Bool :=
  protocol = "http:" || protocol = "https:" || protocol = "ws:"
    || protocol = "wss:" || protocol = "ftp:" || protocol = "file:"

/-- Default port of a scheme per the URL Standard, `""` when it has
none. -/
def defaultPort (protocol : String) : String :=
  if protocol = "http:" ∨ protocol = "ws:" then "80"
  else if protocol = "https:" ∨ protocol = "wss:" then "443"
  else if protocol = "ftp:" then "21"
  else ""

/-- The WHATWG `protocol` setter (`loc.protocol = base.protocol` in
`resolveUrlToBase`), per the URL Standard's scheme-state override steps:
the assignment is silently refused when it would cross the
special/non-special divide in either direction, when it would turn a URL
carrying credentials or a port into a `file:` URL, or when the URL is a
`file:` URL whose host is empty; on success, a port equal to the new
scheme's default port is cleared.  The assigned value is the `protocol`
of an already-parsed URL, so the setter's scheme-parse-failure branch
cannot fire and is not modelled. -/
def setProtocol (u : URLRec) (value : String) : URLRec :=
  if isSpecialScheme u.protocol ≠ isSpecialScheme value then u
  else if value = "file:" ∧ (u.username ≠ "" ∨ u.password ≠ "" ∨ u.port ≠ "") then u
  else if u.protocol = "file:" ∧ u.hostname = "" then u
  else { u with protocol := value
                port := if u.port = defaultPort value then "" else u.port }

/-- The WHATWG `hostname` setter (`loc.hostname = base.hostname`), per
the URL Standard's hostname-state override steps: the assignment is
silently refused when the URL has an opaque path, when the new value is
empty and the URL's scheme is special, or when the new value is empty and
the URL carries credentials or a port.  The assigned value is the
`hostname` of an already-parsed URL, so the host-parse-failure branch is
not modelled (nor is the `file:`-specific host parsing, which no theorem
below exercises). -/
def setHostname (u : URLRec) (value : String) : URLRec :=
  if u.opaquePath = true then u
  else if value = "" ∧ isSpecialScheme u.protocol = true then u
  else if value = "" ∧ (u.username ≠ "" ∨ u.password ≠ "" ∨ u.port ≠ "") then u
  else { u with hostname := value }

/-- The WHATWG `port` setter (`loc.port = base.port`): the assignment is
silently refused when the URL cannot have a port — null or empty host, or
`file:` scheme; an empty value clears the port.  The assigned value is
the `port` of an already-parsed URL (`""` or a valid port number), so the
port-parse-failure branch cannot fire and is not modelled. -/
def setPort (u : URLRec) (value : String) : URLRec :=
  if u.hostname = "" ∨ u.protocol = "file:" then u
  else { u with port := value }

/-- `resolveUrlToBase` of `src/utils.ts`.  The WHATWG `new URL`
constructor is the oracle `parseURL` (`none` models its `TypeError` on an
unparsable input, which the function does not catch); the three setter
assignments are applied in source order through `setProtocol`,
`setHostname` and `setPort`, each with its silent-refusal guards; the
final `toString` serialization is left to the external collaborator, so
the embedded function returns the URL object itself. -/
def resolveUrlToBase (parseURL : String → Option URLRec)
    (locUrl baseUrl : String) : Except String URLRec :=
  match parseURL locUrl with
  | none => .error ("Invalid URL: " ++ locUrl)
  | some loc =>
    match parseURL baseUrl with
    | none => .error ("Invalid URL: " ++ baseUrl)
    | some base =>
      .ok (setPort (setHostname (setProtocol loc base.protocol) base.hostname) base.port)

/-! ## The validation pipeline (server source embedded in `README.md`)

`runValidation` is driven by `pLimit(1)`: tasks are admitted in submission
order and, with width 1, run one after another, so the pipeline is
sequential.  Route handlers (`/api/abort`) run only while the pipeline is
suspended at an `await` (`validatePage`'s network call, or the `sleep`
after a task).  The machine below makes each maximal synchronous segment
one `step`, and a schedule interleaves pipeline ticks with abort
requests. -/

/-- The literal argument of the `const limit = pLimit(1)` call in
`runValidation`: the width of the shared concurrency limiter.  It is a
fixed constant — no submission parameter reaches it. -/
def pLimitArgument : Nat := 1

/-- The literal argument of the `await sleep(1000)` call at the end of
each page task in `runValidation`: the inter-task pause in milliseconds.
It is a fixed constant — no submission parameter reaches it. -/
def sleepArgument : Nat := 1000

/-- The `for (const sitemapUrl of result.sitemapUrls)` loop of the
`sitemapindex` branch of `runValidation`.  For each nested sitemap URL:
emit `sitemapindex_fetching`; fetch it (`net` is the `axios.get` oracle,
yielding the parsed document of the response text); run `parseUrlsFromXml`
on it.  A fetch failure or a parse throw is caught by the per-URL `catch`
and emits `sitemapindex_fetch_error`.  Only a `urls` parse appends to the
accumulator and emits `sitemapindex_fetched`; a nested document that is
itself a sitemap index falls through the `if (nested.kind === 'urls')`
test with no event and no recursion. -/
def resolveNested (net : String → Except String SitemapDoc)
    (sitemapUrls : List String) (job : Job) (acc : List String) :
    Job × List String :=
  match sitemapUrls with
  | [] => (job, acc)
  | sitemapUrl :: rest =>
    let job := emit job (.sitemapindex_fetching sitemapUrl)
    match net sitemapUrl with
    | .error e =>
      resolveNested net rest (emit job (.sitemapindex_fetch_error sitemapUrl e)) acc
    | .ok doc =>
      match parseUrlsFromXml doc with
      | .error e =>
        resolveNested net rest (emit job (.sitemapindex_fetch_error sitemapUrl e)) acc
      | .ok (.urls nestedUrls) =>
        resolveNested net rest
          (emit job (.sitemapindex_fetched sitemapUrl nestedUrls.length))
          (acc ++ nestedUrls)
      | .ok (.sitemapindex _) =>
        resolveNested net rest job acc

/-- Result of the synchronous-plus-resolution front part of
`runValidation`, up to (and including) the `sitemap_done` emission:
either the job ended early (`launched = none`), or the task phase starts
with the chosen base URL and the ordered `(source, resolved)` pairs. -/
structure FrontResult where
  job : Job
  launched : Option (String × List (String × String))
deriving Repr

/-- The part of `runValidation` after `rawUrls` is known: the
`rawUrls.length === 0` short-circuit (`sitemap_error` then `endJob`), the
base-URL choice `params.base.trim() || getOrigin(rawUrls[0])` (`origin`
is the `getOrigin` oracle), the `resolveUrlToBase` mapping (`resolveO` is
its oracle for inputs on which `new URL` succeeds), and the `sitemap_done`
emission. -/
def runValidationAfterParse (origin : String → String)
    (resolveO : String → String → String) (base : String) (job : Job)
    (rawUrls : List String) : FrontResult :=
  match rawUrls with
  | [] =>
    { job := endJob (emit job (.sitemap_error "No <url> entries found in the sitemap XML."))
      launched := none }
  | first :: _ =>
    let baseUrl := if base.trim = "" then origin first else base.trim
    let pairs := rawUrls.map fun u => (u, resolveO u baseUrl)
    let job := emit job (.sitemap_done pairs.length (pairs.map fun p => p.2))
    { job := job, launched := some (baseUrl, pairs) }

/-- The front of `runValidation`: parse the submitted XML (`doc` is the
already-`parser.parse`d submission), short-circuit with `sitemap_error`
on an unrecognized root, resolve a `sitemapindex` root one level through
`resolveNested` bracketed by the `sitemapindex_resolving` and
`sitemapindex_resolved` notices, then hand over to
`runValidationAfterParse`. -/
def runValidationFront (net : String → Except String SitemapDoc)
    (origin : String → String) (resolveO : String → String → String)
    (doc : SitemapDoc) (base : String) (job : Job) : FrontResult :=
  match parseUrlsFromXml doc with
  | .error e =>
    { job := endJob (emit job (.sitemap_error e)), launched := none }
  | .ok (.urls rawUrls) =>
    runValidationAfterParse origin resolveO base job rawUrls
  | .ok (.sitemapindex sitemapUrls) =>
    let job := emit job (.sitemapindex_resolving sitemapUrls.length sitemapUrls)
    let (job, rawUrls) := resolveNested net sitemapUrls job []
    let job := emit job (.sitemapindex_resolved rawUrls.length)
    runValidationAfterParse origin resolveO base job rawUrls

/-- Control position of the sequential task phase of `runValidation`,
between two `await` boundaries:

* `taskCheck idx` — about to run task `idx`'s synchronous prologue (the
  `if (job.aborted) return` check and, if not aborted, the
  `page_fetching` emission up to the `await validatePage(...)`);
* `taskAfterChecker idx` — `validatePage` has settled for task `idx`;
  about to run the synchronous epilogue (classification or catch,
  `results[index] = result`, `page_done`, up to the `await sleep(1000)`);
* `summarize` — `Promise.all` has resolved; about to run the summary
  block, `emit done` and `endJob` (the code runs it whether or not the
  job was aborted);
* `finished` — `runValidation` has returned. -/
inductive Phase where
  | taskCheck (idx : Nat)
  | taskAfterChecker (idx : Nat)
  | summarize
  | finished
deriving DecidableEq, Repr

/-- State of one `runValidation` execution in its task phase: the shared
job, the `results` array (`new Array(resolvedUrls.length)`, a slot is
`none` until its task writes it), the list of inter-task pauses inserted
so far (each the millisecond argument passed to `sleep`), and the control
position. -/
structure MState where
  job : Job
  results : List (Option PageResult)
  delays : List Nat
  phase : Phase
deriving Repr

/-- The fixed data of one `runValidation` execution: the ordered
`(source, resolved)` pairs, the `validatePage` oracle (network plus W3C
checker; an `Except.error` is a thrown failure, caught by the task's
`catch`), and the chosen base URL. -/
structure PipelineConfig where
  pairs : List (String × String)
  checker : String → Except String (List W3CMessage)
  base : String

/-- One pipeline tick: run the next maximal synchronous segment of
`runValidation`'s task phase.  Mirrors the task body: the abort check
skips the task entirely (no events, no result, no sleep); a successful
checker call emits `page_validating` then `page_done` and records the
classified result; a thrown checker failure is caught and recorded as
`status: 'failed'` with empty messages (no `page_validating`), and
`page_done` is still emitted; both branches then pause for
`sleepArgument` milliseconds.  After the last task, the summary block
runs unconditionally: `done{summary}` then `endJob`.  Note that nothing
here consults `job.done`. -/
def step (cfg : PipelineConfig) (st : MState) : MState :=
  match st.phase with
  | .taskCheck idx =>
    match cfg.pairs.get? idx with
    | none => { st with phase := .summarize }
    | some (_, resolved) =>
      if st.job.aborted then
        { st with phase := .taskCheck (idx + 1) }
      else
        { st with
            job := emit st.job (.page_fetching idx resolved)
            phase := .taskAfterChecker idx }
  | .taskAfterChecker idx =>
    match cfg.pairs.get? idx with
    | none => { st with phase := .taskCheck (idx + 1) }
    | some (source, resolved) =>
      match cfg.checker resolved with
      | .ok messages =>
        let status := classify messages
        let result : PageResult :=
          { url := resolved, sourceUrl := source, messages := messages
            status := status, errorMessage := none }
        let job := emit st.job (.page_validating idx resolved)
        let job := emit job (.page_done idx resolved status messages none)
        { job := job
          results := st.results.set idx (some result)
          delays := st.delays ++ [sleepArgument]
          phase := .taskCheck (idx + 1) }
      | .error err =>
        let result : PageResult :=
          { url := resolved, sourceUrl := source, messages := []
            status := .failed, errorMessage := some err }
        let job := emit st.job (.page_done idx resolved .failed [] (some err))
        { job := job
          results := st.results.set idx (some result)
          delays := st.delays ++ [sleepArgument]
          phase := .taskCheck (idx + 1) }
  | .summarize =>
    let valid := st.results.filterMap id
    let summary := mkSummary cfg.base valid
    { st with job := endJob (emit st.job (.done summary)), phase := .finished }
  | .finished => st

/-- A label of an interleaved execution: either the pipeline runs its next
synchronous segment, or the `/api/abort` route handler runs (it may be
scheduled at any `await` boundary, and also after the job is done — the
route only requires the job to exist in the map). -/
inductive Lab where
  | tick
  | abortReq
deriving DecidableEq, Repr

/-- Apply one scheduled label. -/
def applyLab (cfg : PipelineConfig) (st : MState) (lab : Lab) : MState :=
  match lab with
  | .tick => step cfg st
  | .abortReq => { st with job := abortRoute st.job }

/-- Run a whole schedule of interleaved labels. -/
def runMachine (cfg : PipelineConfig) (sched : List Lab) (st : MState) : MState :=
  sched.foldl (applyLab cfg) st

/-- The task-phase start state of `runValidation`: the job as left by the
front, `results = new Array(n)` all unset, no pauses yet, control before
task 0. -/
def initialMState (job : Job) (pairs : List (String × String)) : MState :=
  { job := job, results := List.replicate pairs.length none
    delays := [], phase := .taskCheck 0 }

/-- A whole `runValidation` execution: the front (parse, optional one-level
index resolution, `sitemap_done`), then — unless the front ended the job —
the task-phase machine under the given interleaving schedule. -/
def runValidation (net : String → Except String SitemapDoc)
    (origin : String → String) (resolveO : String → String → String)
    (checker : String → Except String (List W3CMessage))
    (doc : SitemapDoc) (base : String) (sched : List Lab) (job : Job) :
    MState :=
  let fr := runValidationFront net origin resolveO doc base job
  match fr.launched with
  | none => { job := fr.job, results := [], delays := [], phase := .finished }
  | some (baseUrl, pairs) =>
    runMachine { pairs := pairs, checker := checker, base := baseUrl } sched
      (initialMState fr.job pairs)

/-! ## Descriptive helpers and concrete fixtures

The helpers below are characterizations used in theorem statements (they
are not part of the embedding); the fixtures are concrete oracle
instantiations for witnesses and counterexamples. -/

/-- Concatenation of the images of a list under a list-valued function. -/
def concatAll {α β : Type} (f : α → List β) : List α → List β
  | [] => []
  | x :: xs => f x ++ concatAll f xs

/-- The events one iteration of `resolveNested` appends for a nested
sitemap URL: always one `sitemapindex_fetching`, then `sitemapindex_fetched`
if the fetched document parses as a `urlset`, `sitemapindex_fetch_error` if
the fetch or the parse failed, and nothing at all if it parses as another
sitemap index. -/
def nestedStepEvents (net : String → Except String SitemapDoc)
    (sitemapUrl : String) : List Event :=
  Event.sitemapindex_fetching sitemapUrl ::
    match net sitemapUrl with
    | .error e => [Event.sitemapindex_fetch_error sitemapUrl e]
    | .ok doc =>
      match parseUrlsFromXml doc with
      | .error e => [Event.sitemapindex_fetch_error sitemapUrl e]
      | .ok (.urls nestedUrls) => [Event.sitemapindex_fetched sitemapUrl nestedUrls.length]
      | .ok (.sitemapindex _) => []

/-- The URLs one iteration of `resolveNested` appends for a nested sitemap
URL: the entries of a `urlset` parse, nothing otherwise. -/
def nestedStepUrls (net : String → Except String SitemapDoc)
    (sitemapUrl : String) : List String :=
  match net sitemapUrl with
  | .ok doc =>
    match parseUrlsFromXml doc with
    | .ok (.urls nestedUrls) => nestedUrls
    | _ => []
  | .error _ => []

/-- The summary carried by the last `done` event of an event list, if
any. -/
def lastSummary (events : List Event) : Option ReportSummary :=
  events.foldl (fun acc e => match e with | .done s => some s | _ => acc) none

/-- Whether an event is one of the terminal events (`done`, `cancelled`,
fatal `sitemap_error`) or the `stream_end` marker that closes a stream. -/
def isTerminalEvent (e : Event) : Bool :=
  match e with
  | .done _ => true
  | .cancelled => true
  | .sitemap_error _ => true
  | .stream_end => true
  | _ => false

/-- Shape of the results array of an abort-free execution at each control
position: the already-settled results followed by the still-unset slots,
in task order. -/
def phaseInv (cfg : PipelineConfig) (results : List (Option PageResult)) :
    Phase → Prop
  | .taskCheck idx =>
    ∃ settled : List PageResult,
      settled.length = min idx cfg.pairs.length ∧
      results = settled.map some
        ++ List.replicate (cfg.pairs.length - settled.length) none
  | .taskAfterChecker idx =>
    idx < cfg.pairs.length ∧
    ∃ settled : List PageResult,
      settled.length = idx ∧
      results = settled.map some ++ List.replicate (cfg.pairs.length - idx) none
  | .summarize =>
    ∃ settled : List PageResult,
      settled.length = cfg.pairs.length ∧ results = settled.map some
  | .finished =>
    ∃ settled : List PageResult,
      settled.length = cfg.pairs.length ∧ results = settled.map some

/-- Invariant of abort-free task-phase executions: the job never observed
an abort, and the results array has the settled-then-unset shape of
`phaseInv`. -/
def TickInv (cfg : PipelineConfig) (st : MState) : Prop :=
  st.job.aborted = false ∧ phaseInv cfg st.results st.phase

/-- Modelled from the spec: the submission parameter record of §6,
`{ sitemapXml: required text, baseUrl: optional override, concurrency:
positive integer ≥1, interTaskDelayMs: non-negative integer }`.  The
server's own parameter record (`params: { xml: string; base: string }` in
`runValidation`) has no counterpart of the last two fields. -/
structure SpecSubmission where
  sitemapXml : String
  baseUrl : Option String := none
  concurrency : Nat := 1
  interTaskDelayMs : Nat := 1000
deriving Repr

/-- A concrete spec-level submission asking for concurrency 2 and a 250 ms
inter-task delay. -/
def specSubmissionExample : SpecSubmission :=
  { sitemapXml := "<urlset><url><loc>https://example.com/a</loc></url></urlset>"
    baseUrl := none
    concurrency := 2
    interTaskDelayMs := 250 }

/-- Fixture: a network oracle that is never consulted successfully. -/
def fixNet : String → Except String SitemapDoc := fun _ => .error "unreachable"

/-- Fixture: a `getOrigin` oracle. -/
def fixOrigin : String → String := fun _ => "https://example.com"

/-- Fixture: a `resolveUrlToBase` oracle leaving URLs unchanged. -/
def fixResolve : String → String → String := fun u _ => u

/-- Fixture: a checker oracle returning no messages for every page. -/
def fixCheckerClean : String → Except String (List W3CMessage) := fun _ => .ok []

/-- Fixture: a checker oracle whose call always throws. -/
def failingChecker : String → Except String (List W3CMessage) :=
  fun _ => .error "network timeout"

/-- Fixture: a one-page `<urlset>` submission. -/
def fixDocOne : SitemapDoc := .urlset [some "https://example.com/a"]

/-- Fixture: a two-page `<urlset>` submission. -/
def fixDocTwo : SitemapDoc :=
  .urlset [some "https://example.com/a", some "https://example.com/b"]

/-- Fixture: a network oracle under which every nested sitemap is itself a
sitemap index. -/
def nestedIndexNet : String → Except String SitemapDoc :=
  fun _ => .ok (.sitemapindex [some "https://example.com/deep.xml"])

/-- Fixture execution: a one-page job where the abort request lands while
the page task is awaiting the checker (after `page_fetching`, before the
task's epilogue), and the pipeline then runs to completion. -/
def abortMidRun : MState :=
  runValidation fixNet fixOrigin fixResolve fixCheckerClean fixDocOne ""
    [Lab.tick, Lab.abortReq, Lab.tick, Lab.tick, Lab.tick] createJob

/-- Fixture execution: like `abortMidRun`, but stopped right after the
in-flight task's epilogue — the state in which a late observer can attach
while the pipeline is still appending post-abort events. -/
def abortMidAttachJob : Job :=
  (runValidation fixNet fixOrigin fixResolve fixCheckerClean fixDocOne ""
    [Lab.tick, Lab.abortReq, Lab.tick] createJob).job

/-- Fixture execution: a two-page job aborted between task 0 and task 1,
so task 1 is skipped, and run to completion. -/
def abortSkipRun : MState :=
  runValidation fixNet fixOrigin fixResolve fixCheckerClean fixDocTwo ""
    [Lab.tick, Lab.tick, Lab.abortReq, Lab.tick, Lab.tick, Lab.tick] createJob

/-- Fixture: a one-page pipeline configuration with a clean checker. -/
def cleanCfg : PipelineConfig :=
  { pairs := [("https://example.com/a", "https://example.com/a")]
    checker := fixCheckerClean
    base := "https://example.com" }

/-- Fixture: a one-page pipeline configuration whose checker call throws. -/
def failCfg : PipelineConfig :=
  { pairs := [("https://example.com/a", "https://example.com/a")]
    checker := failingChecker
    base := "https://example.com" }

/-- Fixture: a task-phase state awaiting the epilogue of task 0. -/
def afterCheckerState : MState :=
  { job := createJob, results := [none], delays := [], phase := .taskAfterChecker 0 }

/-- Fixture: a machine state at the summary segment of a job that has
already been aborted (and is therefore already terminal). -/
def abortedSummarizeState : MState :=
  { job := { buffered := [Event.cancelled, Event.stream_end], done := true, aborted := true }
    results := []
    delays := []
    phase := .summarize }

/-- Fixture: the parsed form of `https://prod.example/a/b?q=1` — a
special-scheme URL with a host and no opaque path. -/
def w8loc : URLRec :=
  { protocol := "https:", hostname := "prod.example", port := ""
    pathname := "/a/b", search := "?q=1" }

/-- Fixture: the parsed form of `http://localhost:3000/`. -/
def w8base : URLRec :=
  { protocol := "http:", hostname := "localhost", port := "3000"
    pathname := "/", search := "" }

/-- Fixture: the parsed form of `mailto:x@y` — a non-special URL with a
null host, a null port and an opaque path, on which all three WHATWG
setters silently refuse. -/
def w8mailto : URLRec :=
  { protocol := "mailto:", hostname := "", port := ""
    pathname := "x@y", search := "", opaquePath := true }

/-- Fixture: a `new URL` oracle defined on exactly three strings. -/
def w8parse : String → Option URLRec :=
  fun s =>
    if s = "https://prod.example/a/b?q=1" then some w8loc
    else if s = "http://localhost:3000/" then some w8base
    else if s = "mailto:x@y" then some w8mailto
    else none

/-! ## Helper lemmas -/

/-- Setting the element right after a list's first part rewrites the head
of its second part. -/
theorem set_append_length {α : Type} (a b : List α) (v : α) :
    (a ++ b).set a.length v = a ++ b.set 0 v := by
  induction a with
  | nil => simp
  | cons x xs ih => simp [List.set, ih]

/-- A type-filtered message count is positive exactly when a message of
that type is present. -/
theorem filter_type_pos_iff (t : Mtype) (l : List W3CMessage) :
    0 < (l.filter fun m => m.type == t).length ↔ ∃ m ∈ l, m.type = t := by
  rw [← List.countP_eq_length_filter, List.countP_pos_iff]
  simp

/-- The four status-count filters of `mkSummary` partition the result
list. -/
theorem status_counts_partition (l : List PageResult) :
    (l.filter fun r => r.status == PageStatus.clean).length
      + (l.filter fun r => r.status == PageStatus.warnings).length
      + (l.filter fun r => r.status == PageStatus.errors).length
      + (l.filter fun r => r.status == PageStatus.failed).length
      = l.length := by
  induction l with
  | nil => simp
  | cons r rest ih =>
    rcases h : r.status <;> simp [List.filter_cons, h] <;> omega

/-! ## Claims -/

/-- C10: every diagnostic produced by the checker adapter has kind
`error`, `warning` or `info` (the `Mtype` of each mapped message is the
normalisation of the raw type/subType), and `normalizeType` maps raw type
`'error'` to `error`, raw type `'info'` with subType `'warning'` to
`warning`, and every other combination to `info`. -/
theorem claim10_normalizeType_cases :
    (∀ msgs : List RawMessage,
      (mapMessages msgs).map (fun m => m.type)
        = msgs.map fun m => normalizeType m.type m.subType)
    ∧ ∀ (t : String) (s : Option String),
        (normalizeType t s = Mtype.error ↔ t = "error")
        ∧ (normalizeType t s = Mtype.warning ↔ (t = "info" ∧ s = some "warning"))
        ∧ (normalizeType t s = Mtype.info ↔
            (t ≠ "error" ∧ ¬ (t = "info" ∧ s = some "warning"))) := by
  constructor
  · intro msgs
    simp [mapMessages]
  · intro t s
    unfold normalizeType
    split_ifs with h1 h2 <;> simp_all

/-- C10 witness: the three concrete mappings. -/
theorem claim10_witness :
    normalizeType "error" none = Mtype.error
    ∧ normalizeType "info" (some "warning") = Mtype.warning
    ∧ normalizeType "warning" none = Mtype.info :=
  ⟨(claim10_normalizeType_cases.2 "error" none).1.mpr rfl,
   (claim10_normalizeType_cases.2 "info" (some "warning")).2.1.mpr ⟨rfl, rfl⟩,
   (claim10_normalizeType_cases.2 "warning" none).2.2.mpr (by simp)⟩

/-- C8 counterexample: both `mailto:x@y` and `http://localhost:3000/`
parse as URLs, yet `resolveUrlToBase` returns the `mailto:` URL
completely unchanged: the protocol setter refuses the
non-special-to-special scheme switch, the hostname setter refuses on the
opaque path, and the port setter refuses on the null host — so the result
carries none of the base URL's scheme, host and port. -/
theorem claim8_counterexample :
    w8parse "mailto:x@y" = some w8mailto
    ∧ w8parse "http://localhost:3000/" = some w8base
    ∧ resolveUrlToBase w8parse "mailto:x@y" "http://localhost:3000/"
        = Except.ok w8mailto
    ∧ w8mailto.protocol ≠ w8base.protocol
    ∧ w8mailto.hostname ≠ w8base.hostname
    ∧ w8mailto.port ≠ w8base.port := by
  refine ⟨rfl, rfl, rfl, ?_, ?_, ?_⟩ <;> decide

/-- C8 amended: when both inputs parse, `resolveUrlToBase` succeeds and
applies the three WHATWG setters in source order, each substituting the
base's component only where the setter accepts; in particular the full
scheme/host/port substitution with path and query preserved goes through
whenever both URLs have special non-`file:` schemes, the discovered URL
has no opaque path, and the base has a non-empty host — while a
non-special opaque-path null-host discovered URL is returned completely
unchanged against a special base.  When either input fails to parse, the
operation fails. -/
theorem claim8_resolveUrlToBase_contract :
    ∀ (parseURL : String → Option URLRec) (locUrl baseUrl : String)
      (loc base : URLRec),
      (parseURL locUrl = some loc → parseURL baseUrl = some base →
        resolveUrlToBase parseURL locUrl baseUrl
          = Except.ok (setPort (setHostname (setProtocol loc base.protocol)
              base.hostname) base.port))
      ∧ (parseURL locUrl = some loc → parseURL baseUrl = some base →
          isSpecialScheme loc.protocol = true →
          isSpecialScheme base.protocol = true →
          loc.protocol ≠ "file:" → base.protocol ≠ "file:" →
          loc.opaquePath = false → base.hostname ≠ "" →
          ∃ u, resolveUrlToBase parseURL locUrl baseUrl = Except.ok u
            ∧ u.protocol = base.protocol ∧ u.hostname = base.hostname
            ∧ u.port = base.port
            ∧ u.pathname = loc.pathname ∧ u.search = loc.search
            ∧ u.hash = loc.hash ∧ u.username = loc.username
            ∧ u.password = loc.password)
      ∧ (parseURL locUrl = some loc → parseURL baseUrl = some base →
          loc.opaquePath = true → isSpecialScheme loc.protocol = false →
          isSpecialScheme base.protocol = true → loc.hostname = "" →
          resolveUrlToBase parseURL locUrl baseUrl = Except.ok loc)
      ∧ ((parseURL locUrl = none ∨ parseURL baseUrl = none) →
          ∃ e, resolveUrlToBase parseURL locUrl baseUrl = Except.error e) := by
  intro parseURL locUrl baseUrl loc base
  refine ⟨?_, ?_, ?_, ?_⟩
  · intro h1 h2
    simp [resolveUrlToBase, h1, h2]
  · intro h1 h2 hsl hsb hlf hbf hop hbh
    refine ⟨{ loc with protocol := base.protocol, hostname := base.hostname, port := base.port }, ?_, rfl, rfl, rfl, rfl, rfl, rfl, rfl, rfl⟩
    simp [resolveUrlToBase, h1, h2, setProtocol, setHostname, setPort,
      hsl, hsb, hlf, hbf, hop, hbh]
  · intro h1 h2 hop hsl hsb hhn
    simp [resolveUrlToBase, h1, h2, setProtocol, setHostname, setPort,
      hop, hsl, hsb, hhn]
  · rintro (h | h)
    · exact ⟨"Invalid URL: " ++ locUrl, by simp [resolveUrlToBase, h]⟩
    · rcases hl : parseURL locUrl with _ | l
      · exact ⟨"Invalid URL: " ++ locUrl, by simp [resolveUrlToBase, hl]⟩
      · exact ⟨"Invalid URL: " ++ baseUrl, by simp [resolveUrlToBase, hl, h]⟩

/-- C8 witness: the amended contract at a concrete parse oracle — the
full substitution on a special-scheme pair, and failure on an unparsable
input. -/
theorem claim8_witness :
    (∃ u, resolveUrlToBase w8parse "https://prod.example/a/b?q=1" "http://localhost:3000/"
        = Except.ok u
      ∧ u.protocol = w8base.protocol ∧ u.hostname = w8base.hostname
      ∧ u.port = w8base.port
      ∧ u.pathname = w8loc.pathname ∧ u.search = w8loc.search
      ∧ u.hash = w8loc.hash ∧ u.username = w8loc.username
      ∧ u.password = w8loc.password)
    ∧ ∃ e, resolveUrlToBase w8parse "not a url" "http://localhost:3000/"
        = Except.error e :=
  ⟨(claim8_resolveUrlToBase_contract w8parse _ _ w8loc w8base).2.1
      (by decide) (by decide) (by decide) (by decide) (by decide) (by decide)
      rfl (by decide),
   (claim8_resolveUrlToBase_contract w8parse "not a url" _ w8loc w8base).2.2.2
      (Or.inl (by decide))⟩

/-- C4: at any depth strictly beyond `MAX_DEPTH`, `extractUrlsFromSitemap`
stops without consulting the network, contributes zero URLs, and succeeds
(the branch does not fail the job). -/
theorem claim4_depth_guard :
    ∀ (net : String → Except String SitemapDoc) (sitemapUrl : String) (depth : Nat),
      MAX_DEPTH < depth →
      extractUrlsFromSitemap net sitemapUrl depth = Except.ok [] := by
  intro net sitemapUrl depth h
  unfold extractUrlsFromSitemap
  simp [h]

/-- C4 witness: a depth-4 branch (one past `MAX_DEPTH = 3`) returns
zero URLs without failing, even over a dead network oracle. -/
theorem claim4_witness :
    MAX_DEPTH < 4
    ∧ extractUrlsFromSitemap fixNet "https://example.com/deep.xml" 4 = Except.ok [] :=
  ⟨by decide, claim4_depth_guard fixNet "https://example.com/deep.xml" 4 (by decide)⟩

/-- C7: classification of a successful checker call — `errors` exactly
when an error-kind message is present, else `warnings` exactly when a
warning-kind message is present, else `clean` — and handling of a thrown
checker call: the page's result is `failed` with empty messages and the
failure description, only `page_done` is emitted for it, and the pipeline
moves on to the next task. -/
theorem claim7_classification_and_failure :
    (∀ messages : List W3CMessage,
      (classify messages = PageStatus.errors ↔ ∃ m ∈ messages, m.type = Mtype.error)
      ∧ (classify messages = PageStatus.warnings ↔
          ((¬ ∃ m ∈ messages, m.type = Mtype.error)
            ∧ ∃ m ∈ messages, m.type = Mtype.warning))
      ∧ (classify messages = PageStatus.clean ↔
          ((¬ ∃ m ∈ messages, m.type = Mtype.error)
            ∧ ¬ ∃ m ∈ messages, m.type = Mtype.warning)))
    ∧ ∀ (cfg : PipelineConfig) (st : MState) (idx : Nat)
        (source resolved err : String),
        st.phase = Phase.taskAfterChecker idx →
        cfg.pairs.get? idx = some (source, resolved) →
        cfg.checker resolved = Except.error err →
        (step cfg st).results = st.results.set idx (some
            { url := resolved, sourceUrl := source, messages := []
              status := PageStatus.failed, errorMessage := some err })
        ∧ (step cfg st).job.buffered = st.job.buffered
            ++ [Event.page_done idx resolved PageStatus.failed [] (some err)]
        ∧ (step cfg st).phase = Phase.taskCheck (idx + 1) := by
  constructor
  · intro messages
    have he := filter_type_pos_iff Mtype.error messages
    have hw := filter_type_pos_iff Mtype.warning messages
    simp only [classify]
    split_ifs with h1 h2 <;> simp_all
  · intro cfg st idx source resolved err hph hget hchk
    rw [List.get?_eq_getElem?] at hget
    refine ⟨?_, ?_, ?_⟩ <;> simp [step, hph, hget, hchk, emit]

/-- C7 witness: over the one-page configuration whose checker throws, the
epilogue of task 0 records a `failed` result with no messages and the
thrown description, and control moves to task 1; a message-free success is
classified `clean`. -/
theorem claim7_witness :
    classify [] = PageStatus.clean
    ∧ (step failCfg afterCheckerState).results
        = [some { url := "https://example.com/a", sourceUrl := "https://example.com/a"
                  messages := [], status := PageStatus.failed
                  errorMessage := some "network timeout" }]
    ∧ (step failCfg afterCheckerState).phase = Phase.taskCheck 1 := by
  have h := claim7_classification_and_failure.2 failCfg afterCheckerState 0
    "https://example.com/a" "https://example.com/a" "network timeout" rfl rfl rfl
  exact ⟨(claim7_classification_and_failure.1 []).2.2.mpr (by simp), h.1, h.2.2⟩

/-- C2 counterexample: on a freshly created job, two abort calls buffer
two `cancelled` events (and two `stream_end` markers) — not one: the
second call is not a no-op. -/
theorem claim2_counterexample :
    (abortRoute (abortRoute createJob)).buffered
      = [Event.cancelled, Event.stream_end, Event.cancelled, Event.stream_end]
    ∧ countCancelled (abortRoute (abortRoute createJob)).buffered = 2 := by
  exact ⟨rfl, rfl⟩

/-- C2 amended: abort is not idempotent — every abort call (first or
subsequent) sets `aborted`, marks the job done, and appends one
`cancelled` event and one `stream_end` marker, so n calls buffer n
`cancelled` events. -/
theorem claim2_amended_each_abort_appends :
    ∀ job : Job,
      (abortRoute job).buffered = job.buffered ++ [Event.cancelled, Event.stream_end]
      ∧ (abortRoute job).aborted = true
      ∧ (abortRoute job).done = true
      ∧ countCancelled (abortRoute job).buffered = countCancelled job.buffered + 1 := by
  intro job
  refine ⟨by simp [abortRoute, endJob, emit], rfl, rfl, ?_⟩
  simp [abortRoute, endJob, emit, countCancelled, List.filter_append]

/-- C3 counterexample: a nested sitemap URL whose document is itself a
sitemap index gets its `sitemapindex_fetching` event but then neither
`sitemapindex_fetched` nor `sitemapindex_fetch_error`, contributes zero
URLs, and is not recursed into. -/
theorem claim3_counterexample :
    resolveNested nestedIndexNet ["https://example.com/s1.xml"] createJob []
      = (Job.mk [Event.sitemapindex_fetching "https://example.com/s1.xml"] false false, [])
    ∧ ((resolveNested nestedIndexNet ["https://example.com/s1.xml"] createJob []).1.buffered.filter
        fun e => (e matches Event.sitemapindex_fetched _ _)
          || (e matches Event.sitemapindex_fetch_error _ _)) = [] := by
  exact ⟨rfl, rfl⟩

/-- C3 amended: the server's index resolution is one level deep, not
recursive — for each nested sitemap URL it appends exactly the events of
`nestedStepEvents` (one `sitemapindex_fetching`, then `sitemapindex_fetched`
for a `urlset` parse, `sitemapindex_fetch_error` for a fetch or parse
failure, and no completion event at all for a nested index) and flattens
into the accumulator exactly the one-level `urlset` URLs; the job's
`done`/`aborted` flags are untouched. -/
theorem claim3_amended_one_level :
    ∀ (net : String → Except String SitemapDoc) (sitemapUrls : List String)
      (job : Job) (acc : List String),
      (resolveNested net sitemapUrls job acc).1.buffered
          = job.buffered ++ concatAll (nestedStepEvents net) sitemapUrls
      ∧ (resolveNested net sitemapUrls job acc).2
          = acc ++ concatAll (nestedStepUrls net) sitemapUrls
      ∧ (resolveNested net sitemapUrls job acc).1.done = job.done
      ∧ (resolveNested net sitemapUrls job acc).1.aborted = job.aborted := by
  intro net sitemapUrls
  induction sitemapUrls with
  | nil => intro job acc; simp [resolveNested, concatAll]
  | cons u rest ih =>
    intro job acc
    rcases hn : net u with e | doc
    · simp [resolveNested, hn, concatAll, nestedStepEvents, nestedStepUrls, emit,
        ih, List.append_assoc]
    · rcases hp : parseUrlsFromXml doc with e | pr
      · simp [resolveNested, hn, hp, concatAll, nestedStepEvents, nestedStepUrls,
          emit, ih, List.append_assoc]
      · rcases pr with us | sus
        · simp [resolveNested, hn, hp, concatAll, nestedStepEvents, nestedStepUrls,
            emit, ih, List.append_assoc]
        · simp [resolveNested, hn, hp, concatAll, nestedStepEvents, nestedStepUrls,
            emit, ih, List.append_assoc]

/-- C9 counterexample: in `abortMidAttachJob` — reached by aborting a
one-page job while its task awaited the checker and letting the pipeline
run one more segment — the job is terminal (`done = true`), so a newly
attached observer receives exactly the buffered sequence and no live
events, but that sequence ends in `page_done`, not in a terminal event. -/
theorem claim9_counterexample :
    abortMidAttachJob.done = true
    ∧ observerReceives abortMidAttachJob [] = abortMidAttachJob.buffered
    ∧ streamAttachesListener abortMidAttachJob = false
    ∧ abortMidAttachJob.buffered.getLast?
        = some (Event.page_done 0 "https://example.com/a" PageStatus.clean [] none)
    ∧ (abortMidAttachJob.buffered.getLast?.map isTerminalEvent) = some false := by
  decide

/-- C9 amended: an observer attached once the job is done receives exactly
the full buffered sequence and zero live events (no listener is
registered); the sequence need not end in a terminal event while the
pipeline is still appending post-abort events. -/
theorem claim9_amended_replay_and_detach :
    ∀ (job : Job) (later : List Event),
      job.done = true →
      observerReceives job later = job.buffered
      ∧ streamAttachesListener job = false := by
  intro job later h
  exact ⟨by simp [observerReceives, h], by simp [streamAttachesListener, h]⟩

/-- C9 witness: the amended replay-and-detach property at a concrete
terminal job, with live events pending that are never delivered. -/
theorem claim9_witness :
    (abortRoute createJob).done = true
    ∧ observerReceives (abortRoute createJob) [Event.stream_end]
        = (abortRoute createJob).buffered
    ∧ streamAttachesListener (abortRoute createJob) = false :=
  ⟨rfl,
   (claim9_amended_replay_and_detach (abortRoute createJob) [Event.stream_end] rfl).1,
   (claim9_amended_replay_and_detach (abortRoute createJob) [Event.stream_end] rfl).2⟩

/-- C1 counterexample: in the execution `abortMidRun` — a one-page job
aborted while its task awaited the checker — the terminal `cancelled`
event sits at position 2 of the final buffer, yet the buffer has 8 events:
five more were appended after it, among them exactly one `done` summary
event.  Both parts of the claim fail: events follow a terminal event, and
a `done` follows an abort. -/
theorem claim1_counterexample :
    abortMidRun.job.buffered.get? 2 = some Event.cancelled
    ∧ ((abortMidRun.job.buffered.drop 3).filter fun e => e matches Event.done _).length = 1
    ∧ abortMidRun.job.buffered.length = 8 := by
  decide

/-- C1 amended: event emission is not gated on the terminal flag — `emit`
appends unconditionally, and whenever the pipeline reaches its summary
segment (it does so even after an abort made the job terminal, because the
code after `Promise.all` never checks `aborted`) it appends a
`done{summary}` event and a second `stream_end`. -/
theorem claim1_amended_emission_unguarded :
    (∀ (job : Job) (e : Event), (emit job e).buffered = job.buffered ++ [e])
    ∧ ∀ (cfg : PipelineConfig) (st : MState),
        st.phase = Phase.summarize →
        (step cfg st).job.buffered
          = st.job.buffered
            ++ [Event.done (mkSummary cfg.base (st.results.filterMap id)),
                Event.stream_end]
        ∧ (step cfg st).job.done = true := by
  constructor
  · intro job e; rfl
  · intro cfg st h
    exact ⟨by simp [step, h, endJob, emit], by simp [step, h, endJob, emit]⟩

/-- C1 witness: the summary segment applied to a job that is already
terminal and aborted still appends `done` and `stream_end` after the
`cancelled`/`stream_end` pair. -/
theorem claim1_witness :
    abortedSummarizeState.job.done = true
    ∧ abortedSummarizeState.job.aborted = true
    ∧ (step cleanCfg abortedSummarizeState).job.buffered
        = [Event.cancelled, Event.stream_end,
           Event.done (mkSummary cleanCfg.base []), Event.stream_end] := by
  refine ⟨rfl, rfl, ?_⟩
  have h := (claim1_amended_emission_unguarded.2 cleanCfg abortedSummarizeState rfl).1
  rw [h]
  rfl

/-- C6 counterexample: the server recognizes no concurrency or delay
option — its limiter width is the literal `1` and its inter-task pause the
literal `1000`, so a submission asking for concurrency 2 and a 250 ms
delay is not honored: the executed one-page run pauses exactly 1000 ms,
not 250, and the limiter width differs from the submitted concurrency. -/
theorem claim6_counterexample :
    pLimitArgument ≠ specSubmissionExample.concurrency
    ∧ sleepArgument ≠ specSubmissionExample.interTaskDelayMs
    ∧ (runValidation fixNet fixOrigin fixResolve fixCheckerClean fixDocOne ""
        [Lab.tick, Lab.tick, Lab.tick, Lab.tick] createJob).delays
      = [sleepArgument]
    ∧ sleepArgument = 1000 := by
  decide

/-- C6 amended: the pipeline's pacing is fixed, independent of the
submission: the limiter width is 1, and every inter-task pause the machine
ever inserts is exactly `sleepArgument = 1000` milliseconds. -/
theorem claim6_amended_fixed_pacing :
    pLimitArgument = 1
    ∧ ∀ (cfg : PipelineConfig) (st : MState) (d : Nat),
        d ∈ (step cfg st).delays → d ∈ st.delays ∨ d = sleepArgument := by
  constructor
  · rfl
  · intro cfg st d hd
    unfold step at hd
    rcases hph : st.phase with idx | idx | _ | _ <;> rw [hph] at hd
    · rcases hg : cfg.pairs.get? idx with _ | p
      · rw [List.get?_eq_getElem?] at hg
        simp [hg] at hd
        exact Or.inl hd
      · rcases p with ⟨src, res⟩
        rw [List.get?_eq_getElem?] at hg
        by_cases ha : st.job.aborted
        · simp [hg, ha] at hd
          exact Or.inl hd
        · simp [hg, ha] at hd
          exact Or.inl hd
    · rcases hg : cfg.pairs.get? idx with _ | p
      · rw [List.get?_eq_getElem?] at hg
        simp [hg] at hd
        exact Or.inl hd
      · rcases p with ⟨src, res⟩
        rw [List.get?_eq_getElem?] at hg
        rcases hc : cfg.checker res with e | msgs
        · simp [hg, hc, List.mem_append] at hd
          rcases hd with hd | hd
          · exact Or.inl hd
          · exact Or.inr hd
        · simp [hg, hc, List.mem_append] at hd
          rcases hd with hd | hd
          · exact Or.inl hd
          · exact Or.inr hd
    · simp at hd
      exact Or.inl hd
    · exact Or.inl hd

/-- C6 witness: the fixed-pacing property at the concrete epilogue of a
clean one-page task — the inserted pause is the fixed 1000 ms. -/
theorem claim6_witness :
    sleepArgument ∈ (step cleanCfg afterCheckerState).delays
    ∧ (sleepArgument ∈ afterCheckerState.delays ∨ sleepArgument = sleepArgument) :=
  ⟨by decide,
   claim6_amended_fixed_pacing.2 cleanCfg afterCheckerState sleepArgument (by decide)⟩

/-- Setting at index `k` where the first part of an append has length `k`
rewrites the head of the second part. -/
theorem set_append_of_len {α : Type} (a b : List α) (k : Nat) (v : α)
    (hk : a.length = k) : (a ++ b).set k v = a ++ b.set 0 v := by
  subst hk
  exact set_append_length a b v

/-- Writing task `idx`'s result into a settled-then-unset results array
extends the settled part by one. -/
theorem set_settled (settled : List PageResult) (n idx : Nat) (r : PageResult)
    (hlen : settled.length = idx) (hidx : idx < n) :
    (settled.map some ++ List.replicate (n - idx) none).set idx (some r)
      = (settled ++ [r]).map some ++ List.replicate (n - (idx + 1)) none := by
  rw [set_append_of_len (settled.map some) _ idx (some r) (by simp [hlen])]
  have h2 : List.replicate (n - idx) (none : Option PageResult)
      = none :: List.replicate (n - (idx + 1)) none := by
    have hh : n - idx = (n - (idx + 1)) + 1 := by omega
    rw [hh, List.replicate_succ]
  rw [h2]
  simp

/-- Mapping `some` then filtering the somes back out is the identity. -/
theorem filterMap_id_map_some {α : Type} (l : List α) :
    (l.map some).filterMap id = l := by
  induction l with
  | nil => rfl
  | cons x xs ih => simp [ih]

/-- One pipeline tick preserves the abort-free invariant. -/
theorem tickInv_step (cfg : PipelineConfig) (st : MState) (h : TickInv cfg st) :
    TickInv cfg (step cfg st) := by
  obtain ⟨hab, hph⟩ := h
  rcases hphase : st.phase with idx | idx | _ | _ <;> rw [hphase] at hph
  · -- taskCheck idx
    simp only [phaseInv] at hph
    obtain ⟨settled, hlen, hres⟩ := hph
    rcases hg : cfg.pairs.get? idx with _ | p
    · have hn : cfg.pairs.length ≤ idx := List.get?_eq_none.mp hg
      rw [List.get?_eq_getElem?] at hg
      have hstep : step cfg st = { st with phase := Phase.summarize } := by
        simp [step, hphase, hg]
      rw [hstep]
      refine ⟨hab, ?_⟩
      simp only [phaseInv]
      refine ⟨settled, by omega, ?_⟩
      rw [hres]
      have h0 : cfg.pairs.length - settled.length = 0 := by omega
      simp [h0]
    · rcases p with ⟨src, res⟩
      have hidx : idx < cfg.pairs.length := by
        rcases List.get?_eq_some.mp hg with ⟨hlt, _⟩
        exact hlt
      rw [List.get?_eq_getElem?] at hg
      have hstep : step cfg st
          = { st with job := emit st.job (Event.page_fetching idx res)
                      phase := Phase.taskAfterChecker idx } := by
        simp [step, hphase, hg, hab]
      rw [hstep]
      refine ⟨by simp [emit, hab], ?_⟩
      simp only [phaseInv]
      refine ⟨hidx, settled, by omega, ?_⟩
      rw [hres]
      have he : settled.length = idx := by omega
      rw [he]
  · -- taskAfterChecker idx
    simp only [phaseInv] at hph
    obtain ⟨hidx, settled, hlen, hres⟩ := hph
    rcases hg : cfg.pairs.get? idx with _ | p
    · exact absurd (List.get?_eq_none.mp hg) (by omega)
    · rcases p with ⟨src, res⟩
      rw [List.get?_eq_getElem?] at hg
      rcases hc : cfg.checker res with e | msgs
      · have hstep : step cfg st
            = { job := emit st.job
                  (Event.page_done idx res PageStatus.failed [] (some e))
                results := st.results.set idx
                  (some (PageResult.mk res src [] PageStatus.failed (some e)))
                delays := st.delays ++ [sleepArgument]
                phase := Phase.taskCheck (idx + 1) } := by
          simp [step, hphase, hg, hc]
        rw [hstep]
        refine ⟨by simp [emit, hab], ?_⟩
        simp only [phaseInv]
        refine ⟨settled ++ [PageResult.mk res src [] PageStatus.failed (some e)],
          ?_, ?_⟩
        · simp [hlen]
          omega
        · rw [hres, set_settled settled cfg.pairs.length idx _ hlen hidx]
          have he : (settled ++ [PageResult.mk res src [] PageStatus.failed (some e)]).length
              = idx + 1 := by simp [hlen]
          rw [he]
      · have hstep : step cfg st
            = { job := emit (emit st.job (Event.page_validating idx res))
                  (Event.page_done idx res (classify msgs) msgs none)
                results := st.results.set idx
                  (some (PageResult.mk res src msgs (classify msgs) none))
                delays := st.delays ++ [sleepArgument]
                phase := Phase.taskCheck (idx + 1) } := by
          simp [step, hphase, hg, hc]
        rw [hstep]
        refine ⟨by simp [emit, hab], ?_⟩
        simp only [phaseInv]
        refine ⟨settled ++ [PageResult.mk res src msgs (classify msgs) none], ?_, ?_⟩
        · simp [hlen]
          omega
        · rw [hres, set_settled settled cfg.pairs.length idx _ hlen hidx]
          have he : (settled ++ [PageResult.mk res src msgs (classify msgs) none]).length
              = idx + 1 := by simp [hlen]
          rw [he]
  · -- summarize
    simp only [phaseInv] at hph
    obtain ⟨settled, hlen, hres⟩ := hph
    have hstep : step cfg st
        = { st with
              job := endJob (emit st.job
                (Event.done (mkSummary cfg.base (st.results.filterMap id))))
              phase := Phase.finished } := by
      simp [step, hphase]
    rw [hstep]
    refine ⟨by simp [endJob, emit, hab], ?_⟩
    simp only [phaseInv]
    exact ⟨settled, hlen, hres⟩
  · -- finished
    have hstep : step cfg st = st := by simp [step, hphase]
    rw [hstep]
    refine ⟨hab, ?_⟩
    rw [hphase]
    simp only [phaseInv] at hph ⊢
    exact hph

/-- An all-ticks schedule preserves the abort-free invariant. -/
theorem tickInv_run (cfg : PipelineConfig) :
    ∀ sched : List Lab, (∀ l ∈ sched, l = Lab.tick) →
      ∀ st : MState, TickInv cfg st → TickInv cfg (runMachine cfg sched st) := by
  intro sched
  induction sched with
  | nil =>
    intro _ st h
    simpa [runMachine] using h
  | cons l rest ih =>
    intro hs st h
    have hl : l = Lab.tick := hs l (List.mem_cons_self l rest)
    have hrest : ∀ x ∈ rest, x = Lab.tick := fun x hx => hs x (List.mem_cons_of_mem l hx)
    subst hl
    have h1 : TickInv cfg (step cfg st) := tickInv_step cfg st h
    simpa [runMachine, applyLab] using ih hrest (step cfg st) h1

/-- The task-phase start state satisfies the abort-free invariant when the
job has not been aborted. -/
theorem tickInv_init (cfg : PipelineConfig) (job : Job)
    (h : job.aborted = false) : TickInv cfg (initialMState job cfg.pairs) := by
  refine ⟨h, ?_⟩
  simp only [initialMState, phaseInv]
  exact ⟨[], by simp, by simp⟩

/-- C5 counterexample: the execution `abortSkipRun` — two resolved URLs,
aborted between task 0 and task 1 so task 1 is skipped — still produces a
final summary, whose `totalPages` is 1 while the resolved URL list (as
announced by its own `sitemap_done` event and by the length of the results
array) has 2 entries.  The four status counts still sum to `totalPages`. -/
theorem claim5_counterexample :
    (lastSummary abortSkipRun.job.buffered).map (fun s => s.totalPages) = some 1
    ∧ abortSkipRun.results.length = 2
    ∧ (abortSkipRun.job.buffered.filter fun e => e matches Event.sitemap_done _ _)
        = [Event.sitemap_done 2 ["https://example.com/a", "https://example.com/b"]]
    ∧ (lastSummary abortSkipRun.job.buffered).map
        (fun s => s.pagesClean + s.pagesWithWarnings + s.pagesWithErrors + s.pagesFailed)
      = some 1 := by
  decide

/-- C5 amended: in every summary the four status counts sum to
`totalPages`; and `totalPages` equals the number of settled results, which
equals the resolved URL count precisely for abort-free executions — every
slot is then settled, and the summary the pipeline computes over the
settled results has `totalPages` equal to the resolved URL count. -/
theorem claim5_amended_sum_and_total :
    (∀ (base : String) (valid : List PageResult),
      (mkSummary base valid).pagesClean + (mkSummary base valid).pagesWithWarnings
        + (mkSummary base valid).pagesWithErrors + (mkSummary base valid).pagesFailed
        = (mkSummary base valid).totalPages)
    ∧ ∀ (cfg : PipelineConfig) (sched : List Lab) (job : Job),
        (∀ l ∈ sched, l = Lab.tick) → job.aborted = false →
        (runMachine cfg sched (initialMState job cfg.pairs)).phase = Phase.finished →
        ∃ settled : List PageResult,
          (runMachine cfg sched (initialMState job cfg.pairs)).results = settled.map some
          ∧ (runMachine cfg sched (initialMState job cfg.pairs)).results.filterMap id
              = settled
          ∧ settled.length = cfg.pairs.length
          ∧ (mkSummary cfg.base settled).totalPages = cfg.pairs.length := by
  constructor
  · intro base valid
    simp only [mkSummary]
    exact status_counts_partition valid
  · intro cfg sched job hs hab hfin
    have hinv := tickInv_run cfg sched hs (initialMState job cfg.pairs)
      (tickInv_init cfg job hab)
    obtain ⟨-, hph⟩ := hinv
    rw [hfin] at hph
    simp only [phaseInv] at hph
    obtain ⟨settled, hlen, hres⟩ := hph
    refine ⟨settled, hres, ?_, hlen, ?_⟩
    · rw [hres, filterMap_id_map_some]
    · simp [mkSummary, hlen]

/-- C5 witness: the amended property at a concrete clean one-page
abort-free run. -/
theorem claim5_witness :
    ∃ settled : List PageResult,
      (runMachine cleanCfg [Lab.tick, Lab.tick, Lab.tick, Lab.tick]
          (initialMState createJob cleanCfg.pairs)).results = settled.map some
      ∧ (runMachine cleanCfg [Lab.tick, Lab.tick, Lab.tick, Lab.tick]
          (initialMState createJob cleanCfg.pairs)).results.filterMap id = settled
      ∧ settled.length = cleanCfg.pairs.length
      ∧ (mkSummary cleanCfg.base settled).totalPages = cleanCfg.pairs.length :=
  claim5_amended_sum_and_total.2 cleanCfg [Lab.tick, Lab.tick, Lab.tick, Lab.tick]
    createJob (by decide) rfl (by decide)
